import Mathlib

/-!
# Verification of the grid-world MDP widget

Shallow embedding of the grid-world reinforcement-learning widget: a 5×5
grid of cells, a reward configuration, a value-iteration solver
(`solveMDP`), three action-selection policies (`getAction_Random`,
`getAction_Greedy`, `getAction_Optimal`), a simulation step (`step`), and
the grid-editing handler (`handleCellClick`).

Conventions of the embedding:
* JavaScript numbers are modelled as exact rationals (`ℚ`).
* The 5×5 row-major arrays (`grid`, `values`) are modelled as total
  functions `ℤ → ℤ → _`; cells outside `[0,5)²` carry the default value
  (`Cell.empty` resp. `0`), matching the fact that reading an absent
  array slot yields `undefined`, which compares unequal to every cell
  code the program tests against.  Writes go through `writeG`/`writeV`.
* The nondeterminism of `Math.random()` is an explicit `Fin 4` parameter
  (`rnd`) threaded to the policies, and the action chosen by a policy is
  an explicit parameter of `step`.
* A thrown JavaScript `TypeError` (access to `undefined[c]`) is modelled
  by the `Except.error` branch of `handleCellClick`, carrying the state
  as mutated up to the point of the throw.
-/

set_option maxRecDepth 2000

namespace GridWorld

/-- Cell classification codes (`CELL_TYPES`): EMPTY = 0, FORBIDDEN = 1,
TARGET = 2, START = 3.  The `start` code exists in the source but is
never stored into the grid. -/
inductive Cell
  | empty
  | forbidden
  | target
  | start
  deriving DecidableEq

/-- The grid: cell classification per (row, column). -/
abbrev Grid := ℤ → ℤ → Cell

/-- The value table `values`: one state value per (row, column). -/
abbrev VTable := ℤ → ℤ → ℚ

/-- The reward configuration (`rewards`): `step`, `target`, `wall`,
`forbidden`.  The `forbidden` field exists in the source but is unused by
the solver and the simulation. -/
structure Rewards where
  step : ℚ
  target : ℚ
  wall : ℚ
  forbidden : ℚ

/-- `GRID_SIZE = 5`. -/
def GRID_SIZE : ℤ := 5

/-- The fixed direction enumeration `[[0,1],[0,-1],[1,0],[-1,0]]`:
Right, Left, Down, Up. -/
def dirs : List (ℤ × ℤ) := [(0, 1), (0, -1), (1, 0), (-1, 0)]

/-- `isValid(r, c)`: inside the grid and not forbidden. -/
def isValid (g : Grid) (r c : ℤ) : Prop :=
  0 ≤ r ∧ r < GRID_SIZE ∧ 0 ≤ c ∧ c < GRID_SIZE ∧ g r c ≠ Cell.forbidden

instance (g : Grid) (r c : ℤ) : Decidable (isValid g r c) := by
  unfold isValid; infer_instance

/-- The body of the inner action loop of `solveMDP`: the one-step value
`val` of direction `d` from state `(r, c)` under the previous table `v`:
step reward (plus target bonus when the neighbour is the target) plus
discounted neighbour value when the move is valid, wall penalty plus
discounted own value otherwise (bump). -/
def qval (g : Grid) (rew : Rewards) (γ : ℚ) (v : VTable) (r c : ℤ) (d : ℤ × ℤ) : ℚ :=
  let nr := r + d.1
  let nc := c + d.2
  if isValid g nr nc then
    (if g nr nc = Cell.target then rew.step + rew.target else rew.step) + γ * v nr nc
  else
    rew.wall + γ * v r c

/-- The `maxQ` accumulation of `solveMDP`: fold over `dirs` starting from
`-Infinity` (modelled as `none`), keeping the strictly larger value; the
final `maxQ === -Infinity ⟹ 0` fallback is `Option.getD 0`. -/
def jsMaxQ (g : Grid) (rew : Rewards) (γ : ℚ) (v : VTable) (r c : ℤ) : ℚ :=
  (dirs.foldl (fun acc d =>
    let val := qval g rew γ v r c d
    match acc with
    | none => some val
    | some m => if val > m then some val else some m) none).getD 0

/-- Array store `v[r][c] = x` on a value table. -/
def writeV (v : VTable) (r c : ℤ) (x : ℚ) : VTable :=
  fun r' c' => if r' = r ∧ c' = c then x else v r' c'

/-- Array store `grid[r][c] = x` on a grid. -/
def writeG (g : Grid) (r c : ℤ) (x : Cell) : Grid :=
  fun r' c' => if r' = r ∧ c' = c then x else g r' c'

/-- The row-major traversal order of the nested
`for (r = 0; r < GRID_SIZE; r++) for (c = 0; c < GRID_SIZE; c++)` loops. -/
def cellsList : List (ℤ × ℤ) :=
  [(0, 0), (0, 1), (0, 2), (0, 3), (0, 4),
   (1, 0), (1, 1), (1, 2), (1, 3), (1, 4),
   (2, 0), (2, 1), (2, 2), (2, 3), (2, 4),
   (3, 0), (3, 1), (3, 2), (3, 3), (3, 4),
   (4, 0), (4, 1), (4, 2), (4, 3), (4, 4)]

/-- One iteration of the cell loop of a `solveMDP` sweep, acting on the
accumulated `(newV, changed)` pair; target and forbidden cells are set
to `0` (without touching `changed`), any other cell is overwritten with
`maxQ` only when `|maxQ - v[r][c]| > 0.001`. -/
def sweepCell (g : Grid) (rew : Rewards) (γ : ℚ) (vOld : VTable)
    (acc : VTable × Bool) (rc : ℤ × ℤ) : VTable × Bool :=
  if g rc.1 rc.2 = Cell.target then
    (writeV acc.1 rc.1 rc.2 0, acc.2)
  else if g rc.1 rc.2 = Cell.forbidden then
    (writeV acc.1 rc.1 rc.2 0, acc.2)
  else
    let maxQ := jsMaxQ g rew γ vOld rc.1 rc.2
    if |maxQ - vOld rc.1 rc.2| > 1/1000 then
      (writeV acc.1 rc.1 rc.2 maxQ, true)
    else
      acc

/-- One full sweep of `solveMDP`'s `while` loop: `newV` starts as a copy
of `v`, `changed` as `false`; every cell is visited in row-major order
reading only the previous table `v`. -/
def sweep (g : Grid) (rew : Rewards) (γ : ℚ) (v : VTable) : VTable × Bool :=
  cellsList.foldl (sweepCell g rew γ v) (v, false)

/-- The `while (changed && iters < 200)` loop of `solveMDP`, with the
remaining fuel made explicit; returns the final table together with the
number of sweeps performed. -/
def solveGo (g : Grid) (rew : Rewards) (γ : ℚ) : ℕ → VTable → VTable × ℕ
  | 0, v => (v, 0)
  | n + 1, v =>
    let p := sweep g rew γ v
    if p.2 then
      let q := solveGo g rew γ n p.1
      (q.1, q.2 + 1)
    else
      (p.1, 1)

/-- The all-zero initial table `v` of `solveMDP`. -/
def vInit : VTable := fun _ _ => 0

/-- `solveMDP()`: run up to 200 sweeps from the all-zero table and return
the resulting value table. -/
def solveMDP (g : Grid) (rew : Rewards) (γ : ℚ) : VTable :=
  (solveGo g rew γ 200 vInit).1

/-- The number of sweeps `solveMDP()` performs (`iters` at loop exit). -/
def solveSweeps (g : Grid) (rew : Rewards) (γ : ℚ) : ℕ :=
  (solveGo g rew γ 200 vInit).2

/-! ## Policies -/

/-- `getAction_Random()`: blindly pick one of the four directions; the
entropy source is the explicit index `rnd`. -/
def getAction_Random (rnd : Fin 4) : ℤ × ℤ :=
  dirs.get ⟨rnd.1, by simp [dirs]⟩

/-- The target-scanning loop of `getAction_Greedy`: row-major scan
keeping the last target found (`tr/tc` overwritten on every hit),
`none` playing the role of the `-1` sentinel. -/
def findTargetLast (g : Grid) : Option (ℤ × ℤ) :=
  cellsList.foldl (fun acc rc => if g rc.1 rc.2 = Cell.target then some rc else acc) none

/-- `getAction_Greedy()`: if no target exists, fall back to
`getAction_Random`; otherwise among currently valid moves pick the one
strictly minimising Manhattan distance to the target (first in `dirs`
order on ties, `minDist = Infinity` modelled by the `none` accumulator);
fall back to `getAction_Random` when no move is valid. -/
def getAction_Greedy (g : Grid) (pos : ℤ × ℤ) (rnd : Fin 4) : ℤ × ℤ :=
  match findTargetLast g with
  | none => getAction_Random rnd
  | some t =>
    let best := dirs.foldl (fun acc d =>
      let nr := pos.1 + d.1
      let nc := pos.2 + d.2
      if isValid g nr nc then
        let dist := |nr - t.1| + |nc - t.2|
        match acc with
        | none => some (d, dist)
        | some bd => if dist < bd.2 then some (d, dist) else some bd
      else acc) none
    match best with
    | none => getAction_Random rnd
    | some bd => bd.1

/-- The one-step lookahead `expectedV` of `getAction_Optimal`: step
reward (plus target bonus) plus discounted value of the neighbour when
the move is valid, wall penalty plus discounted value of the current
state otherwise. -/
def expectedV (g : Grid) (rew : Rewards) (γ : ℚ) (v : VTable) (pos : ℤ × ℤ) (d : ℤ × ℤ) : ℚ :=
  let nr := pos.1 + d.1
  let nc := pos.2 + d.2
  if isValid g nr nc then
    (if g nr nc = Cell.target then rew.step + rew.target else rew.step) + γ * v nr nc
  else
    rew.wall + γ * v pos.1 pos.2

/-- `getAction_Optimal()`: fold over `dirs` keeping the direction of
strictly larger `expectedV` (`maxV = -Infinity` modelled by the `none`
accumulator), with the `bestDir || getAction_Random()` fallback. -/
def getAction_Optimal (g : Grid) (rew : Rewards) (γ : ℚ) (v : VTable)
    (pos : ℤ × ℤ) (rnd : Fin 4) : ℤ × ℤ :=
  let best := dirs.foldl (fun acc d =>
    let e := expectedV g rew γ v pos d
    match acc with
    | none => some (d, e)
    | some bd => if e > bd.2 then some (d, e) else some bd) none
  match best with
  | none => getAction_Random rnd
  | some bd => bd.1

/-! ## Widget state and operations -/

/-- Editing tools (`currentTool`). -/
inductive Tool
  | start
  | target
  | forbidden
  | empty
  deriving DecidableEq

/-- The mutable state of the widget: grid, start position, agent
position, episode accumulators, running flag, value table, reward
configuration and discount factor.  The cosmetic `message`/`feedback`
fields are omitted. -/
structure WState where
  grid : Grid
  startPos : ℤ × ℤ
  agentPos : ℤ × ℤ
  stepCount : ℕ
  totalReward : ℚ
  isRunning : Bool
  values : VTable
  rewards : Rewards
  gamma : ℚ

/-- `resetAgent()`: `stop()` (clear the running flag), move the agent to
the start position, zero the accumulators. -/
def resetAgent (s : WState) : WState :=
  { s with isRunning := false, agentPos := s.startPos, stepCount := 0, totalReward := 0 }

/-- The row-major double loop of the `target` branch of
`handleCellClick`: every target cell is overwritten with `EMPTY`. -/
def clearTargets (g : Grid) : Grid :=
  cellsList.foldl
    (fun g' rc => if g' rc.1 rc.2 = Cell.target then writeG g' rc.1 rc.2 Cell.empty else g') g

/-- `handleCellClick(r, c)`: no-op while running; otherwise apply the
current tool at `(r, c)` and re-run `solveMDP`.  The source performs no
bounds check: with a row index outside `[0,5)` every tool branch reads
or writes `grid[r][c]` through the `undefined` row `grid[r]` and throws
a `TypeError`, modelled by `Except.error` carrying the state as mutated
up to the throw (for the `start` tool, `startPos` is assigned before the
throwing access). -/
def handleCellClick (s : WState) (tool : Tool) (r c : ℤ) : Except WState WState :=
  if s.isRunning then Except.ok s
  else if 0 ≤ r ∧ r < GRID_SIZE then
    let s' := match tool with
      | Tool.start =>
        let s1 := { s with startPos := (r, c) }
        let g1 := if s1.grid r c = Cell.target then writeG s1.grid r c Cell.empty else s1.grid
        let g2 := if g1 r c = Cell.forbidden then writeG g1 r c Cell.empty else g1
        resetAgent { s1 with grid := g2 }
      | Tool.target => { s with grid := writeG (clearTargets s.grid) r c Cell.target }
      | Tool.forbidden => { s with grid := writeG s.grid r c Cell.forbidden }
      | Tool.empty => { s with grid := writeG s.grid r c Cell.empty }
    Except.ok { s' with values := solveMDP s'.grid s'.rewards s'.gamma }
  else
    match tool with
    | Tool.start => Except.error { s with startPos := (r, c) }
    | _ => Except.error s

/-- `step()` with the policy's chosen direction `a` made explicit: if the
agent already occupies the target, add the target reward and `stop()`;
otherwise attempt the move (`isValid`): on success move the agent and add
the step reward, on failure (bump) stay and add the wall penalty; either
way increment the step counter; finally, if the agent now occupies the
target, add the target reward and `stop()`. -/
def step (s : WState) (a : ℤ × ℤ) : WState :=
  if s.grid s.agentPos.1 s.agentPos.2 = Cell.target then
    { s with totalReward := s.totalReward + s.rewards.target, isRunning := false }
  else
    let nr := s.agentPos.1 + a.1
    let nc := s.agentPos.2 + a.2
    let s1 :=
      if isValid s.grid nr nc then
        { s with agentPos := (nr, nc), totalReward := s.totalReward + s.rewards.step }
      else
        { s with totalReward := s.totalReward + s.rewards.wall }
    let s2 := { s1 with stepCount := s1.stepCount + 1 }
    if s2.grid s2.agentPos.1 s2.agentPos.2 = Cell.target then
      { s2 with totalReward := s2.totalReward + s2.rewards.target, isRunning := false }
    else
      s2

/-- The manual single-step button: `@click="step"` guarded by
`:disabled="isRunning"`, so invoking it while running does nothing. -/
def manualStep (s : WState) (a : ℤ × ℤ) : WState :=
  if s.isRunning then s else step s a

/-- `start()`: reset first when the agent already sits on the target,
then set the running flag (the timer itself is not modelled). -/
def startRun (s : WState) : WState :=
  let s1 := if s.grid s.agentPos.1 s.agentPos.2 = Cell.target then resetAgent s else s
  { s1 with isRunning := true }

/-- `stop()`: clear the running flag (the timer itself is not modelled). -/
def stopRun (s : WState) : WState :=
  { s with isRunning := false }

/-- A reward-configuration edit; the `watch` on `rewards` re-runs
`solveMDP`. -/
def setRewards (s : WState) (rew : Rewards) : WState :=
  let s1 := { s with rewards := rew }
  { s1 with values := solveMDP s1.grid s1.rewards s1.gamma }

/-- A discount-factor edit; the `watch` on `gamma` re-runs `solveMDP`. -/
def setGamma (s : WState) (γ : ℚ) : WState :=
  let s1 := { s with gamma := γ }
  { s1 with values := solveMDP s1.grid s1.rewards s1.gamma }

/-- The all-empty grid backing the initial 5×5 array of zeros. -/
def baseGrid : Grid := fun _ _ => Cell.empty

/-- The initial grid: `grid[4][4] = TARGET` set in `onMounted`. -/
def grid0 : Grid := writeG baseGrid 4 4 Cell.target

/-- The default reward configuration:
`step = -1, target = 10, wall = -5, forbidden = -5`. -/
def rewards0 : Rewards := ⟨-1, 10, -5, -5⟩

/-- The widget state after `onMounted` (target placed, agent reset,
solver run), with the default rewards and `γ = 0.9`. -/
def initW : WState :=
  { grid := grid0
    startPos := (0, 0)
    agentPos := (0, 0)
    stepCount := 0
    totalReward := 0
    isRunning := false
    values := solveMDP grid0 rewards0 (9/10)
    rewards := rewards0
    gamma := 9/10 }

/-- States reachable from the mounted widget through the user-facing
operations.  Grid edits go through `handleCellClick`, which the template
only ever invokes with in-range coordinates (the click handlers are
generated by iterating over the 5×5 grid). -/
inductive Reachable : WState → Prop
  | init : Reachable initW
  | click {s s' : WState} (tool : Tool) (r c : ℤ) :
      Reachable s → 0 ≤ r → r < GRID_SIZE → 0 ≤ c → c < GRID_SIZE →
      handleCellClick s tool r c = Except.ok s' → Reachable s'
  | simStep {s : WState} (a : ℤ × ℤ) : Reachable s → a ∈ dirs → Reachable (step s a)
  | reset {s : WState} : Reachable s → Reachable (resetAgent s)
  | simStart {s : WState} : Reachable s → Reachable (startRun s)
  | simStop {s : WState} : Reachable s → Reachable (stopRun s)
  | editRewards {s : WState} (rew : Rewards) : Reachable s → Reachable (setRewards s rew)
  | editGamma {s : WState} (γ : ℚ) : Reachable s → Reachable (setGamma s γ)

/-- Number of in-range grid cells classified as `Target`. -/
def targetCount (g : Grid) : ℕ :=
  cellsList.countP (fun rc => decide (g rc.1 rc.2 = Cell.target))

/-- Manhattan distance between two cells. -/
def manhattan (p q : ℤ × ℤ) : ℤ := |p.1 - q.1| + |p.2 - q.2|

/-- Project the state out of a `handleCellClick` result (the state as
left by the handler, whether it returned or threw). -/
def exOut (e : Except WState WState) : WState :=
  match e with
  | Except.ok s => s
  | Except.error s => s

/-- Whether a `handleCellClick` result is a thrown `TypeError`. -/
def exThrew (e : Except WState WState) : Bool :=
  match e with
  | Except.ok _ => false
  | Except.error _ => true

/-! ## Basic lemmas about the traversal order and array stores -/

lemma mem_cellsList {r c : ℤ} :
    (r, c) ∈ cellsList ↔ 0 ≤ r ∧ r < GRID_SIZE ∧ 0 ≤ c ∧ c < GRID_SIZE := by
  constructor
  · intro h
    simp only [cellsList, List.mem_cons, List.not_mem_nil, or_false, Prod.mk.injEq] at h
    simp only [GRID_SIZE]
    omega
  · rintro ⟨h1, h2, h3, h4⟩
    simp only [GRID_SIZE] at h2 h4
    interval_cases r <;> interval_cases c <;> decide

lemma cellsList_nodup : cellsList.Nodup := by decide

/-! ## Pointwise characterisation of one sweep -/

/-- Whether a sweep overwrites the cell `rc`: terminal cells are always
written (with `0`), everything else only when the Bellman update moves
the value by more than the `0.001` threshold. -/
def sweepWrites (g : Grid) (rew : Rewards) (γ : ℚ) (v : VTable) (rc : ℤ × ℤ) : Prop :=
  g rc.1 rc.2 = Cell.target ∨ g rc.1 rc.2 = Cell.forbidden ∨
    |jsMaxQ g rew γ v rc.1 rc.2 - v rc.1 rc.2| > 1/1000

instance (g : Grid) (rew : Rewards) (γ : ℚ) (v : VTable) (rc : ℤ × ℤ) :
    Decidable (sweepWrites g rew γ v rc) := by
  unfold sweepWrites; infer_instance

/-- The value a sweep stores at a written cell. -/
def sweepVal (g : Grid) (rew : Rewards) (γ : ℚ) (v : VTable) (rc : ℤ × ℤ) : ℚ :=
  if g rc.1 rc.2 = Cell.target ∨ g rc.1 rc.2 = Cell.forbidden then 0
  else jsMaxQ g rew γ v rc.1 rc.2

lemma sweepCell_fst_self (g : Grid) (rew : Rewards) (γ : ℚ) (vOld : VTable)
    (acc : VTable × Bool) (rc : ℤ × ℤ) (hW : sweepWrites g rew γ vOld rc) :
    (sweepCell g rew γ vOld acc rc).1 rc.1 rc.2 = sweepVal g rew γ vOld rc := by
  by_cases h1 : g rc.1 rc.2 = Cell.target
  · simp only [sweepCell, sweepVal]
    rw [if_pos h1, if_pos (Or.inl h1)]
    simp [writeV]
  · by_cases h2 : g rc.1 rc.2 = Cell.forbidden
    · simp only [sweepCell, sweepVal]
      rw [if_neg h1, if_pos h2, if_pos (Or.inr h2)]
      simp [writeV]
    · have h3 : |jsMaxQ g rew γ vOld rc.1 rc.2 - vOld rc.1 rc.2| > 1/1000 := by
        rcases hW with h | h | h
        · exact absurd h h1
        · exact absurd h h2
        · exact h
      simp only [sweepCell, sweepVal]
      rw [if_neg h1, if_neg h2, if_pos h3, if_neg (fun h => h.elim h1 h2)]
      simp [writeV]

lemma sweepCell_nowrite (g : Grid) (rew : Rewards) (γ : ℚ) (vOld : VTable)
    (acc : VTable × Bool) (rc : ℤ × ℤ) (hW : ¬ sweepWrites g rew γ vOld rc) :
    sweepCell g rew γ vOld acc rc = acc := by
  unfold sweepWrites at hW
  push_neg at hW
  obtain ⟨h1, h2, h3⟩ := hW
  simp only [sweepCell]
  rw [if_neg h1, if_neg h2, if_neg (not_lt.mpr h3)]

lemma sweepCell_fst_other (g : Grid) (rew : Rewards) (γ : ℚ) (vOld : VTable)
    (acc : VTable × Bool) (rc : ℤ × ℤ) (r c : ℤ) (hx : rc ≠ (r, c)) :
    (sweepCell g rew γ vOld acc rc).1 r c = acc.1 r c := by
  have hne : ¬(r = rc.1 ∧ c = rc.2) := by
    rintro ⟨h1, h2⟩
    exact hx (Prod.ext h1.symm h2.symm)
  simp only [sweepCell]
  split_ifs <;> simp [writeV, hne]

lemma foldl_sweepCell_fst (g : Grid) (rew : Rewards) (γ : ℚ) (vOld : VTable)
    (L : List (ℤ × ℤ)) (r c : ℤ) :
    ∀ acc : VTable × Bool,
      (L.foldl (sweepCell g rew γ vOld) acc).1 r c =
        if (r, c) ∈ L ∧ sweepWrites g rew γ vOld (r, c) then sweepVal g rew γ vOld (r, c)
        else acc.1 r c := by
  induction L with
  | nil => intro acc; simp
  | cons x L ih =>
    intro acc
    rw [List.foldl_cons, ih]
    rcases eq_or_ne x (r, c) with hx | hx
    · subst hx
      by_cases hW : sweepWrites g rew γ vOld (r, c)
      · have hcons : (r, c) ∈ (r, c) :: L ∧ sweepWrites g rew γ vOld (r, c) :=
          ⟨List.mem_cons_self _ _, hW⟩
        rw [if_pos hcons]
        by_cases hm : (r, c) ∈ L
        · rw [if_pos ⟨hm, hW⟩]
        · rw [if_neg (fun h => hm h.1)]
          simpa using sweepCell_fst_self g rew γ vOld acc (r, c) hW
      · rw [if_neg (fun h => hW h.2), if_neg (fun h => hW h.2),
          sweepCell_nowrite g rew γ vOld acc (r, c) hW]
    · rw [sweepCell_fst_other g rew γ vOld acc x r c hx]
      have hmem : ((r, c) ∈ x :: L) ↔ ((r, c) ∈ L) := by
        simp [List.mem_cons, Ne.symm hx]
      by_cases h : (r, c) ∈ L ∧ sweepWrites g rew γ vOld (r, c)
      · rw [if_pos h, if_pos ⟨hmem.mpr h.1, h.2⟩]
      · rw [if_neg h, if_neg (fun hh => h ⟨hmem.mp hh.1, hh.2⟩)]

lemma sweepCell_snd (g : Grid) (rew : Rewards) (γ : ℚ) (vOld : VTable)
    (acc : VTable × Bool) (rc : ℤ × ℤ) :
    (sweepCell g rew γ vOld acc rc).2 =
      (acc.2 || decide (g rc.1 rc.2 ≠ Cell.target ∧ g rc.1 rc.2 ≠ Cell.forbidden ∧
        |jsMaxQ g rew γ vOld rc.1 rc.2 - vOld rc.1 rc.2| > 1/1000)) := by
  by_cases h1 : g rc.1 rc.2 = Cell.target
  · simp [sweepCell, h1]
  · by_cases h2 : g rc.1 rc.2 = Cell.forbidden
    · simp [sweepCell, h1, h2]
    · by_cases h3 : |jsMaxQ g rew γ vOld rc.1 rc.2 - vOld rc.1 rc.2| > 1/1000
      · simp only [sweepCell]
        rw [if_neg h1, if_neg h2, if_pos h3, decide_eq_true ⟨h1, h2, h3⟩, Bool.or_true]
      · simp only [sweepCell]
        rw [if_neg h1, if_neg h2, if_neg h3, decide_eq_false (fun hh => h3 hh.2.2),
          Bool.or_false]

lemma foldl_sweepCell_snd (g : Grid) (rew : Rewards) (γ : ℚ) (vOld : VTable)
    (L : List (ℤ × ℤ)) :
    ∀ acc : VTable × Bool,
      (L.foldl (sweepCell g rew γ vOld) acc).2 =
        (acc.2 || L.any (fun rc => decide (g rc.1 rc.2 ≠ Cell.target ∧
          g rc.1 rc.2 ≠ Cell.forbidden ∧
          |jsMaxQ g rew γ vOld rc.1 rc.2 - vOld rc.1 rc.2| > 1/1000))) := by
  induction L with
  | nil => intro acc; simp
  | cons x L ih =>
    intro acc
    rw [List.foldl_cons, ih, List.any_cons, sweepCell_snd, Bool.or_assoc]

lemma sweep_fst (g : Grid) (rew : Rewards) (γ : ℚ) (v : VTable) (r c : ℤ) :
    (sweep g rew γ v).1 r c =
      if (r, c) ∈ cellsList ∧ sweepWrites g rew γ v (r, c) then sweepVal g rew γ v (r, c)
      else v r c :=
  foldl_sweepCell_fst g rew γ v cellsList r c (v, false)

lemma sweep_snd (g : Grid) (rew : Rewards) (γ : ℚ) (v : VTable) :
    (sweep g rew γ v).2 =
      cellsList.any (fun rc => decide (g rc.1 rc.2 ≠ Cell.target ∧
        g rc.1 rc.2 ≠ Cell.forbidden ∧
        |jsMaxQ g rew γ v rc.1 rc.2 - v rc.1 rc.2| > 1/1000)) := by
  rw [sweep, foldl_sweepCell_snd]
  simp

lemma sweep_nonmem (g : Grid) (rew : Rewards) (γ : ℚ) (v : VTable) {r c : ℤ}
    (h : (r, c) ∉ cellsList) : (sweep g rew γ v).1 r c = v r c := by
  rw [sweep_fst, if_neg (fun hh => h hh.1)]

/-! ## The solver loop -/

lemma solveGo_flagTrue {g : Grid} {rew : Rewards} {γ : ℚ} {v v' : VTable} (n : ℕ)
    (h : sweep g rew γ v = (v', true)) :
    solveGo g rew γ (n + 1) v =
      ((solveGo g rew γ n v').1, (solveGo g rew γ n v').2 + 1) := by
  simp [solveGo, h]

lemma solveGo_flagFalse {g : Grid} {rew : Rewards} {γ : ℚ} {v v' : VTable} (n : ℕ)
    (h : sweep g rew γ v = (v', false)) :
    solveGo g rew γ (n + 1) v = (v', 1) := by
  simp [solveGo, h]

lemma solveGo_count_le (g : Grid) (rew : Rewards) (γ : ℚ) :
    ∀ (fuel : ℕ) (v : VTable), (solveGo g rew γ fuel v).2 ≤ fuel := by
  intro fuel
  induction fuel with
  | zero => intro v; simp [solveGo]
  | succ n ih =>
    intro v
    rw [solveGo]
    split
    · simpa using Nat.succ_le_succ (ih _)
    · omega

/-! ## Editing and scanning loops -/

lemma foldl_clearTargets_apply (L : List (ℤ × ℤ)) (r c : ℤ) :
    ∀ acc : Grid,
      (L.foldl
        (fun g2 rc => if g2 rc.1 rc.2 = Cell.target then writeG g2 rc.1 rc.2 Cell.empty else g2)
        acc) r c =
        if (r, c) ∈ L ∧ acc r c = Cell.target then Cell.empty else acc r c := by
  induction L with
  | nil => intro acc; simp
  | cons x L ih =>
    intro acc
    rw [List.foldl_cons, ih]
    rcases eq_or_ne x (r, c) with hx | hx
    · subst hx
      by_cases ht : acc r c = Cell.target
      · have hw : writeG acc r c Cell.empty r c = Cell.empty := by simp [writeG]
        simp [ht, hw]
      · simp [ht]
    · have hne : ¬(r = x.1 ∧ c = x.2) := by
        rintro ⟨h1, h2⟩
        exact hx (Prod.ext h1.symm h2.symm)
      have hacc : (if acc x.1 x.2 = Cell.target then writeG acc x.1 x.2 Cell.empty else acc) r c
          = acc r c := by
        split_ifs <;> simp [writeG, hne]
      rw [hacc]
      have hmem : ((r, c) ∈ x :: L) ↔ ((r, c) ∈ L) := by
        simp [List.mem_cons, Ne.symm hx]
      by_cases h : (r, c) ∈ L ∧ acc r c = Cell.target
      · rw [if_pos h, if_pos ⟨hmem.mpr h.1, h.2⟩]
      · rw [if_neg h, if_neg (fun hh => h ⟨hmem.mp hh.1, hh.2⟩)]

lemma clearTargets_apply (g : Grid) (r c : ℤ) :
    clearTargets g r c =
      if (r, c) ∈ cellsList ∧ g r c = Cell.target then Cell.empty else g r c :=
  foldl_clearTargets_apply cellsList r c g

lemma findTargetLast_eq_none (g : Grid)
    (h : ∀ rc ∈ cellsList, g rc.1 rc.2 ≠ Cell.target) : findTargetLast g = none := by
  unfold findTargetLast
  have key : ∀ (L : List (ℤ × ℤ)), (∀ rc ∈ L, g rc.1 rc.2 ≠ Cell.target) →
      ∀ acc : Option (ℤ × ℤ),
        L.foldl (fun acc rc => if g rc.1 rc.2 = Cell.target then some rc else acc) acc = acc := by
    intro L
    induction L with
    | nil => intro _ acc; simp
    | cons x L ih =>
      intro hL acc
      rw [List.foldl_cons, if_neg (hL x (List.mem_cons_self x L)), ih]
      intro rc hrc
      exact hL rc (List.mem_cons_of_mem x hrc)
  exact key cellsList h none

/-! ## Concrete solver runs

The default §8 configuration (target at `(4,4)`, no forbidden cells,
`step = -1, target = 10, wall = -5, γ = 0.9`) converges in 9 sweeps: the
exact fixed-point values propagate outward one Manhattan ring per sweep.
The same grid with `γ = 1/1000` converges in 3 sweeps, freezing all
cells at Manhattan distance ≥ 3 from the target at the same value `-1`
because their Bellman updates stay within the `0.001` threshold.
The intermediate tables are spelled out and each sweep is checked by
evaluation. -/

/-- View a 5×5 list-of-rows literal as a value table (0 outside). -/
def tblOf (l : List (List ℚ)) : VTable :=
  fun r c =>
    if 0 ≤ r ∧ r < GRID_SIZE ∧ 0 ≤ c ∧ c < GRID_SIZE then (l.getD r.toNat []).getD c.toNat 0
    else 0

lemma tblOf_nonmem (l : List (List ℚ)) {r c : ℤ} (h : (r, c) ∉ cellsList) :
    tblOf l r c = 0 := by
  rw [tblOf, if_neg]
  intro hb
  exact h (mem_cellsList.mpr hb)

/-- Establish the table produced by one sweep from its pointwise
specification on in-range cells (checked by evaluation) and agreement
outside the grid. -/
lemma sweep_fst_eq_of (g : Grid) (rew : Rewards) (γ : ℚ) (v v' : VTable)
    (hin : ∀ rc ∈ cellsList,
      (if sweepWrites g rew γ v rc then sweepVal g rew γ v rc else v rc.1 rc.2) = v' rc.1 rc.2)
    (hout : ∀ r c : ℤ, (r, c) ∉ cellsList → v r c = v' r c) :
    (sweep g rew γ v).1 = v' := by
  funext r c
  by_cases h : (r, c) ∈ cellsList
  · have h2 := hin (r, c) h
    by_cases hw : sweepWrites g rew γ v (r, c)
    · rw [sweep_fst, if_pos ⟨h, hw⟩]
      rwa [if_pos hw] at h2
    · rw [sweep_fst, if_neg (fun hh => hw hh.2)]
      rwa [if_neg hw] at h2
  · rw [sweep_nonmem g rew γ v h]
    exact hout r c h

def tl1 : List (List ℚ) :=
  [[-1, -1, -1, -1, -1],
   [-1, -1, -1, -1, -1],
   [-1, -1, -1, -1, -1],
   [-1, -1, -1, -1, 9],
   [-1, -1, -1, 9, 0]]

def tl2 : List (List ℚ) :=
  [[-19/10, -19/10, -19/10, -19/10, -19/10],
   [-19/10, -19/10, -19/10, -19/10, -19/10],
   [-19/10, -19/10, -19/10, -19/10, 71/10],
   [-19/10, -19/10, -19/10, 71/10, 9],
   [-19/10, -19/10, 71/10, 9, 0]]

def tl3 : List (List ℚ) :=
  [[-271/100, -271/100, -271/100, -271/100, -271/100],
   [-271/100, -271/100, -271/100, -271/100, 539/100],
   [-271/100, -271/100, -271/100, 539/100, 71/10],
   [-271/100, -271/100, 539/100, 71/10, 9],
   [-271/100, 539/100, 71/10, 9, 0]]

def tl4 : List (List ℚ) :=
  [[-3439/1000, -3439/1000, -3439/1000, -3439/1000, 3851/1000],
   [-3439/1000, -3439/1000, -3439/1000, 3851/1000, 539/100],
   [-3439/1000, -3439/1000, 3851/1000, 539/100, 71/10],
   [-3439/1000, 3851/1000, 539/100, 71/10, 9],
   [3851/1000, 539/100, 71/10, 9, 0]]

def tl5 : List (List ℚ) :=
  [[-40951/10000, -40951/10000, -40951/10000, 24659/10000, 3851/1000],
   [-40951/10000, -40951/10000, 24659/10000, 3851/1000, 539/100],
   [-40951/10000, 24659/10000, 3851/1000, 539/100, 71/10],
   [24659/10000, 3851/1000, 539/100, 71/10, 9],
   [3851/1000, 539/100, 71/10, 9, 0]]

def tl6 : List (List ℚ) :=
  [[-468559/100000, -468559/100000, 121931/100000, 24659/10000, 3851/1000],
   [-468559/100000, 121931/100000, 24659/10000, 3851/1000, 539/100],
   [121931/100000, 24659/10000, 3851/1000, 539/100, 71/10],
   [24659/10000, 3851/1000, 539/100, 71/10, 9],
   [3851/1000, 539/100, 71/10, 9, 0]]

def tl7 : List (List ℚ) :=
  [[-5217031/1000000, 97379/1000000, 121931/100000, 24659/10000, 3851/1000],
   [97379/1000000, 121931/100000, 24659/10000, 3851/1000, 539/100],
   [121931/100000, 24659/10000, 3851/1000, 539/100, 71/10],
   [24659/10000, 3851/1000, 539/100, 71/10, 9],
   [3851/1000, 539/100, 71/10, 9, 0]]

def tl8 : List (List ℚ) :=
  [[-9123589/10000000, 97379/1000000, 121931/100000, 24659/10000, 3851/1000],
   [97379/1000000, 121931/100000, 24659/10000, 3851/1000, 539/100],
   [121931/100000, 24659/10000, 3851/1000, 539/100, 71/10],
   [24659/10000, 3851/1000, 539/100, 71/10, 9],
   [3851/1000, 539/100, 71/10, 9, 0]]

def ul1 : List (List ℚ) :=
  [[-1, -1, -1, -1, -1],
   [-1, -1, -1, -1, -1],
   [-1, -1, -1, -1, -1],
   [-1, -1, -1, -1, 9],
   [-1, -1, -1, 9, 0]]

def ul2 : List (List ℚ) :=
  [[-1, -1, -1, -1, -1],
   [-1, -1, -1, -1, -1],
   [-1, -1, -1, -1, -991/1000],
   [-1, -1, -1, -991/1000, 9],
   [-1, -1, -991/1000, 9, 0]]

/-- Concrete rational equalities are established from two decidable
comparisons: under full-transparency evaluation the order on `ℚ`
evaluates cheaply while propositional equality does not. -/
lemma sweep_fst_eq_of_le (g : Grid) (rew : Rewards) (γ : ℚ) (v v' : VTable)
    (hin : ∀ rc ∈ cellsList,
      (if sweepWrites g rew γ v rc then sweepVal g rew γ v rc else v rc.1 rc.2) ≤ v' rc.1 rc.2 ∧
      v' rc.1 rc.2 ≤
        (if sweepWrites g rew γ v rc then sweepVal g rew γ v rc else v rc.1 rc.2))
    (hout : ∀ r c : ℤ, (r, c) ∉ cellsList → v r c = v' r c) :
    (sweep g rew γ v).1 = v' :=
  sweep_fst_eq_of g rew γ v v'
    (fun rc hrc => le_antisymm (hin rc hrc).1 (hin rc hrc).2) hout

lemma sweep8_1 : sweep grid0 rewards0 (9/10) vInit = (tblOf tl1, true) := by
  have hfst : (sweep grid0 rewards0 (9/10) vInit).1 = tblOf tl1 := by
    refine sweep_fst_eq_of_le _ _ _ _ _ ?_ ?_
    · with_unfolding_all decide
    · intro r c h
      rw [tblOf_nonmem tl1 h]
      rfl
  have hsnd : (sweep grid0 rewards0 (9/10) vInit).2 = true := by
    rw [sweep_snd]
    with_unfolding_all decide
  exact Prod.ext hfst hsnd

lemma sweep8_2 : sweep grid0 rewards0 (9/10) (tblOf tl1) = (tblOf tl2, true) := by
  have hfst : (sweep grid0 rewards0 (9/10) (tblOf tl1)).1 = tblOf tl2 := by
    refine sweep_fst_eq_of_le _ _ _ _ _ ?_ ?_
    · with_unfolding_all decide
    · intro r c h
      rw [tblOf_nonmem tl1 h, tblOf_nonmem tl2 h]
  have hsnd : (sweep grid0 rewards0 (9/10) (tblOf tl1)).2 = true := by
    rw [sweep_snd]
    with_unfolding_all decide
  exact Prod.ext hfst hsnd

lemma sweep8_3 : sweep grid0 rewards0 (9/10) (tblOf tl2) = (tblOf tl3, true) := by
  have hfst : (sweep grid0 rewards0 (9/10) (tblOf tl2)).1 = tblOf tl3 := by
    refine sweep_fst_eq_of_le _ _ _ _ _ ?_ ?_
    · with_unfolding_all decide
    · intro r c h
      rw [tblOf_nonmem tl2 h, tblOf_nonmem tl3 h]
  have hsnd : (sweep grid0 rewards0 (9/10) (tblOf tl2)).2 = true := by
    rw [sweep_snd]
    with_unfolding_all decide
  exact Prod.ext hfst hsnd

lemma sweep8_4 : sweep grid0 rewards0 (9/10) (tblOf tl3) = (tblOf tl4, true) := by
  have hfst : (sweep grid0 rewards0 (9/10) (tblOf tl3)).1 = tblOf tl4 := by
    refine sweep_fst_eq_of_le _ _ _ _ _ ?_ ?_
    · with_unfolding_all decide
    · intro r c h
      rw [tblOf_nonmem tl3 h, tblOf_nonmem tl4 h]
  have hsnd : (sweep grid0 rewards0 (9/10) (tblOf tl3)).2 = true := by
    rw [sweep_snd]
    with_unfolding_all decide
  exact Prod.ext hfst hsnd

lemma sweep8_5 : sweep grid0 rewards0 (9/10) (tblOf tl4) = (tblOf tl5, true) := by
  have hfst : (sweep grid0 rewards0 (9/10) (tblOf tl4)).1 = tblOf tl5 := by
    refine sweep_fst_eq_of_le _ _ _ _ _ ?_ ?_
    · with_unfolding_all decide
    · intro r c h
      rw [tblOf_nonmem tl4 h, tblOf_nonmem tl5 h]
  have hsnd : (sweep grid0 rewards0 (9/10) (tblOf tl4)).2 = true := by
    rw [sweep_snd]
    with_unfolding_all decide
  exact Prod.ext hfst hsnd

lemma sweep8_6 : sweep grid0 rewards0 (9/10) (tblOf tl5) = (tblOf tl6, true) := by
  have hfst : (sweep grid0 rewards0 (9/10) (tblOf tl5)).1 = tblOf tl6 := by
    refine sweep_fst_eq_of_le _ _ _ _ _ ?_ ?_
    · with_unfolding_all decide
    · intro r c h
      rw [tblOf_nonmem tl5 h, tblOf_nonmem tl6 h]
  have hsnd : (sweep grid0 rewards0 (9/10) (tblOf tl5)).2 = true := by
    rw [sweep_snd]
    with_unfolding_all decide
  exact Prod.ext hfst hsnd

lemma sweep8_7 : sweep grid0 rewards0 (9/10) (tblOf tl6) = (tblOf tl7, true) := by
  have hfst : (sweep grid0 rewards0 (9/10) (tblOf tl6)).1 = tblOf tl7 := by
    refine sweep_fst_eq_of_le _ _ _ _ _ ?_ ?_
    · with_unfolding_all decide
    · intro r c h
      rw [tblOf_nonmem tl6 h, tblOf_nonmem tl7 h]
  have hsnd : (sweep grid0 rewards0 (9/10) (tblOf tl6)).2 = true := by
    rw [sweep_snd]
    with_unfolding_all decide
  exact Prod.ext hfst hsnd

lemma sweep8_8 : sweep grid0 rewards0 (9/10) (tblOf tl7) = (tblOf tl8, true) := by
  have hfst : (sweep grid0 rewards0 (9/10) (tblOf tl7)).1 = tblOf tl8 := by
    refine sweep_fst_eq_of_le _ _ _ _ _ ?_ ?_
    · with_unfolding_all decide
    · intro r c h
      rw [tblOf_nonmem tl7 h, tblOf_nonmem tl8 h]
  have hsnd : (sweep grid0 rewards0 (9/10) (tblOf tl7)).2 = true := by
    rw [sweep_snd]
    with_unfolding_all decide
  exact Prod.ext hfst hsnd

lemma sweep8_9 : sweep grid0 rewards0 (9/10) (tblOf tl8) = (tblOf tl8, false) := by
  have hfst : (sweep grid0 rewards0 (9/10) (tblOf tl8)).1 = tblOf tl8 := by
    refine sweep_fst_eq_of_le _ _ _ _ _ ?_ ?_
    · with_unfolding_all decide
    · intro r c _
      rfl
  have hsnd : (sweep grid0 rewards0 (9/10) (tblOf tl8)).2 = false := by
    rw [sweep_snd]
    with_unfolding_all decide
  exact Prod.ext hfst hsnd

lemma solve8_eq : solveGo grid0 rewards0 (9/10) 200 vInit = (tblOf tl8, 9) := by
  have h192 : solveGo grid0 rewards0 (9/10) 192 (tblOf tl8) = (tblOf tl8, 1) := by
    rw [show (192 : ℕ) = 191 + 1 from rfl, solveGo_flagFalse 191 sweep8_9]
  have h193 : solveGo grid0 rewards0 (9/10) 193 (tblOf tl7) = (tblOf tl8, 2) := by
    rw [show (193 : ℕ) = 192 + 1 from rfl, solveGo_flagTrue 192 sweep8_8, h192]
  have h194 : solveGo grid0 rewards0 (9/10) 194 (tblOf tl6) = (tblOf tl8, 3) := by
    rw [show (194 : ℕ) = 193 + 1 from rfl, solveGo_flagTrue 193 sweep8_7, h193]
  have h195 : solveGo grid0 rewards0 (9/10) 195 (tblOf tl5) = (tblOf tl8, 4) := by
    rw [show (195 : ℕ) = 194 + 1 from rfl, solveGo_flagTrue 194 sweep8_6, h194]
  have h196 : solveGo grid0 rewards0 (9/10) 196 (tblOf tl4) = (tblOf tl8, 5) := by
    rw [show (196 : ℕ) = 195 + 1 from rfl, solveGo_flagTrue 195 sweep8_5, h195]
  have h197 : solveGo grid0 rewards0 (9/10) 197 (tblOf tl3) = (tblOf tl8, 6) := by
    rw [show (197 : ℕ) = 196 + 1 from rfl, solveGo_flagTrue 196 sweep8_4, h196]
  have h198 : solveGo grid0 rewards0 (9/10) 198 (tblOf tl2) = (tblOf tl8, 7) := by
    rw [show (198 : ℕ) = 197 + 1 from rfl, solveGo_flagTrue 197 sweep8_3, h197]
  have h199 : solveGo grid0 rewards0 (9/10) 199 (tblOf tl1) = (tblOf tl8, 8) := by
    rw [show (199 : ℕ) = 198 + 1 from rfl, solveGo_flagTrue 198 sweep8_2, h198]
  rw [show (200 : ℕ) = 199 + 1 from rfl, solveGo_flagTrue 199 sweep8_1, h199]

/-- On the §8 configuration `solveMDP` returns the `tl8` table. -/
lemma vals8_eq : solveMDP grid0 rewards0 (9/10) = tblOf tl8 := by
  rw [solveMDP, solve8_eq]

lemma sweeps8_eq : solveSweeps grid0 rewards0 (9/10) = 9 := by
  rw [solveSweeps, solve8_eq]

lemma sweepU_1 : sweep grid0 rewards0 (1/1000) vInit = (tblOf ul1, true) := by
  have hfst : (sweep grid0 rewards0 (1/1000) vInit).1 = tblOf ul1 := by
    refine sweep_fst_eq_of_le _ _ _ _ _ ?_ ?_
    · with_unfolding_all decide
    · intro r c h
      rw [tblOf_nonmem ul1 h]
      rfl
  have hsnd : (sweep grid0 rewards0 (1/1000) vInit).2 = true := by
    rw [sweep_snd]
    with_unfolding_all decide
  exact Prod.ext hfst hsnd

lemma sweepU_2 : sweep grid0 rewards0 (1/1000) (tblOf ul1) = (tblOf ul2, true) := by
  have hfst : (sweep grid0 rewards0 (1/1000) (tblOf ul1)).1 = tblOf ul2 := by
    refine sweep_fst_eq_of_le _ _ _ _ _ ?_ ?_
    · with_unfolding_all decide
    · intro r c h
      rw [tblOf_nonmem ul1 h, tblOf_nonmem ul2 h]
  have hsnd : (sweep grid0 rewards0 (1/1000) (tblOf ul1)).2 = true := by
    rw [sweep_snd]
    with_unfolding_all decide
  exact Prod.ext hfst hsnd

lemma sweepU_3 : sweep grid0 rewards0 (1/1000) (tblOf ul2) = (tblOf ul2, false) := by
  have hfst : (sweep grid0 rewards0 (1/1000) (tblOf ul2)).1 = tblOf ul2 := by
    refine sweep_fst_eq_of_le _ _ _ _ _ ?_ ?_
    · with_unfolding_all decide
    · intro r c _
      rfl
  have hsnd : (sweep grid0 rewards0 (1/1000) (tblOf ul2)).2 = false := by
    rw [sweep_snd]
    with_unfolding_all decide
  exact Prod.ext hfst hsnd

lemma solveU_eq : solveGo grid0 rewards0 (1/1000) 200 vInit = (tblOf ul2, 3) := by
  have h198 : solveGo grid0 rewards0 (1/1000) 198 (tblOf ul2) = (tblOf ul2, 1) := by
    rw [show (198 : ℕ) = 197 + 1 from rfl, solveGo_flagFalse 197 sweepU_3]
  have h199 : solveGo grid0 rewards0 (1/1000) 199 (tblOf ul1) = (tblOf ul2, 2) := by
    rw [show (199 : ℕ) = 198 + 1 from rfl, solveGo_flagTrue 198 sweepU_2, h198]
  rw [show (200 : ℕ) = 199 + 1 from rfl, solveGo_flagTrue 199 sweepU_1, h199]

/-- On the obstacle-free grid with `γ = 1/1000` the solver returns the
`ul2` table, which freezes all cells at distance ≥ 3 at the value `-1`. -/
lemma valsU_eq : solveMDP grid0 rewards0 (1/1000) = tblOf ul2 := by
  rw [solveMDP, solveU_eq]

/-! ## The `maxQ` fold is a genuine maximum -/

lemma ite_gt_eq_max (a b : ℚ) : (if b > a then b else a) = max a b := by
  split_ifs with h
  · exact (max_eq_right h.le).symm
  · exact (max_eq_left (not_lt.mp h)).symm

lemma jsMaxQ_eq_max (g : Grid) (rew : Rewards) (γ : ℚ) (v : VTable) (r c : ℤ) :
    jsMaxQ g rew γ v r c =
      max (max (max (qval g rew γ v r c (0, 1)) (qval g rew γ v r c (0, -1)))
          (qval g rew γ v r c (1, 0)))
        (qval g rew γ v r c (-1, 0)) := by
  simp only [jsMaxQ, dirs, List.foldl_cons, List.foldl_nil, ← apply_ite Option.some,
    Option.getD_some, ite_gt_eq_max]

lemma jsMaxQ_is_max (g : Grid) (rew : Rewards) (γ : ℚ) (v : VTable) (r c : ℤ) :
    (∀ d ∈ dirs, qval g rew γ v r c d ≤ jsMaxQ g rew γ v r c) ∧
    (∃ d ∈ dirs, jsMaxQ g rew γ v r c = qval g rew γ v r c d) := by
  rw [jsMaxQ_eq_max]
  constructor
  · intro d hd
    fin_cases hd
    · exact le_max_of_le_left (le_max_of_le_left (le_max_left _ _))
    · exact le_max_of_le_left (le_max_of_le_left (le_max_right _ _))
    · exact le_max_of_le_left (le_max_right _ _)
    · exact le_max_right _ _
  · rcases max_choice
      (max (max (qval g rew γ v r c (0, 1)) (qval g rew γ v r c (0, -1)))
        (qval g rew γ v r c (1, 0))) (qval g rew γ v r c (-1, 0)) with h4 | h4
    · rcases max_choice
        (max (qval g rew γ v r c (0, 1)) (qval g rew γ v r c (0, -1)))
        (qval g rew γ v r c (1, 0)) with h3 | h3
      · rcases max_choice (qval g rew γ v r c (0, 1)) (qval g rew γ v r c (0, -1)) with h2 | h2
        · exact ⟨(0, 1), by decide, by rw [h4, h3, h2]⟩
        · exact ⟨(0, -1), by decide, by rw [h4, h3, h2]⟩
      · exact ⟨(1, 0), by decide, by rw [h4, h3]⟩
    · exact ⟨(-1, 0), by decide, by rw [h4]⟩

/-! ## Claim C1 -/

/-- C1 (amended): within one sweep every in-range cell that is neither
Target nor Forbidden is set to the maximum `maxQ` over the four actions
of Q(s, a) only when `|maxQ - V_prev(s)| > 0.001`, and keeps its previous
value otherwise; Target and Forbidden cells are set to 0; all reads use
the previous sweep's table (the right-hand side depends only on `v`).
`jsMaxQ` is the maximum of the four action values. -/
theorem C1_sweep_update_rule :
    ∀ (g : Grid) (rew : Rewards) (γ : ℚ) (v : VTable) (r c : ℤ),
      0 ≤ r → r < GRID_SIZE → 0 ≤ c → c < GRID_SIZE →
      (∀ d ∈ dirs, qval g rew γ v r c d ≤ jsMaxQ g rew γ v r c) ∧
      (∃ d ∈ dirs, jsMaxQ g rew γ v r c = qval g rew γ v r c d) ∧
      (sweep g rew γ v).1 r c =
        (if g r c = Cell.target ∨ g r c = Cell.forbidden then 0
         else if |jsMaxQ g rew γ v r c - v r c| > 1/1000 then jsMaxQ g rew γ v r c
         else v r c) := by
  intro g rew γ v r c h1 h2 h3 h4
  refine ⟨(jsMaxQ_is_max g rew γ v r c).1, (jsMaxQ_is_max g rew γ v r c).2, ?_⟩
  have hm : (r, c) ∈ cellsList := mem_cellsList.mpr ⟨h1, h2, h3, h4⟩
  rw [sweep_fst]
  by_cases ht : g r c = Cell.target ∨ g r c = Cell.forbidden
  · have hw : sweepWrites g rew γ v (r, c) := ht.elim Or.inl (fun h => Or.inr (Or.inl h))
    rw [if_pos ⟨hm, hw⟩, if_pos ht, sweepVal, if_pos ht]
  · by_cases hq : |jsMaxQ g rew γ v r c - v r c| > 1/1000
    · rw [if_pos ⟨hm, Or.inr (Or.inr hq)⟩, if_neg ht, if_pos hq, sweepVal, if_neg ht]
    · have hw : ¬ sweepWrites g rew γ v (r, c) := by
        rintro (h | h | h)
        · exact ht (Or.inl h)
        · exact ht (Or.inr h)
        · exact hq h
      rw [if_neg (fun hh => hw hh.2), if_neg ht, if_neg hq]

/-- The reward configuration refuting C1 as stated: a step reward of
`-0.001` makes the first Bellman update fall inside the solver's
skip-threshold. -/
def rewardsC1 : Rewards := ⟨-1/1000, 10, -5, -5⟩

/-- C1 counterexample: on the default grid with `step = -0.001`, the
first sweep leaves cell `(0,0)` at `0` even though the maximum of the
four action values is `-0.001 ≠ 0`; the sweep does not always assign the
Bellman maximum. -/
theorem C1_counterexample :
    grid0 0 0 ≠ Cell.target ∧ grid0 0 0 ≠ Cell.forbidden ∧
    (sweep grid0 rewardsC1 (9/10) vInit).1 0 0 = 0 ∧
    jsMaxQ grid0 rewardsC1 (9/10) vInit 0 0 = -1/1000 ∧
    (0 : ℚ) ≠ -1/1000 := by
  refine ⟨by decide, by decide, ?_, ?_, by norm_num⟩
  · rw [sweep_fst, if_neg]
    · rfl
    · rintro ⟨-, hw⟩
      revert hw
      with_unfolding_all decide
  · exact le_antisymm (by with_unfolding_all decide) (by with_unfolding_all decide)

/-- C1 witness: the amended update rule evaluated at cell `(0,0)` of
the default configuration. -/
theorem C1_witness :
    (sweep grid0 rewards0 (9/10) vInit).1 0 0 =
      (if grid0 0 0 = Cell.target ∨ grid0 0 0 = Cell.forbidden then 0
       else if |jsMaxQ grid0 rewards0 (9/10) vInit 0 0 - vInit 0 0| > 1/1000
       then jsMaxQ grid0 rewards0 (9/10) vInit 0 0
       else vInit 0 0) :=
  (C1_sweep_update_rule grid0 rewards0 (9/10) vInit 0 0 (by decide) (by decide) (by decide)
    (by decide)).2.2

/-! ## Claim C2 -/

/-- C2 (amended): whenever the agent already occupies the Target,
`step()` adds `reward.target` to the cumulative reward and transitions
to Idle, leaving the agent position and the step count unchanged.  This
holds for the first such call and for every subsequent call before
`reset()`, so a subsequent `step()` is not a no-op: it adds
`reward.target` again each time. -/
theorem C2_step_on_target :
    ∀ (s : WState) (a : ℤ × ℤ),
      s.grid s.agentPos.1 s.agentPos.2 = Cell.target →
      step s a =
        { s with totalReward := s.totalReward + s.rewards.target, isRunning := false } := by
  intro s a h
  rw [step, if_pos h]

/-- C2 witness: the amended rule evaluated on a concrete terminal
state. -/
def sAtTarget : WState :=
  { grid := grid0, startPos := (0, 0), agentPos := (4, 4), stepCount := 7, totalReward := 2,
    isRunning := false, values := vInit, rewards := rewards0, gamma := 9/10 }

theorem C2_witness :
    sAtTarget.grid sAtTarget.agentPos.1 sAtTarget.agentPos.2 = Cell.target ∧
    step sAtTarget (0, 1) =
      { sAtTarget with totalReward := sAtTarget.totalReward + sAtTarget.rewards.target,
                       isRunning := false } :=
  ⟨by decide, C2_step_on_target sAtTarget (0, 1) (by decide)⟩

/-- C2 counterexample: with the agent resting on the Target after the
episode ended, a second manual `step()` is not a no-op — it adds
`reward.target` to the cumulative reward again. -/
theorem C2_counterexample :
    sAtTarget.grid sAtTarget.agentPos.1 sAtTarget.agentPos.2 = Cell.target ∧
    (manualStep sAtTarget (0, 1)).isRunning = false ∧
    (manualStep (manualStep sAtTarget (0, 1)) (0, 1)).totalReward ≠
      (manualStep sAtTarget (0, 1)).totalReward := by
  refine ⟨by decide, by with_unfolding_all decide, ?_⟩
  with_unfolding_all decide

/-! ## Claim C3 -/

/-- C3: when the agent is not on the Target and the chosen action leads
out of bounds or into a Forbidden cell, `step()` leaves the agent
position unchanged, adds exactly `reward.wall` to the cumulative reward,
and increments the step counter (all other state fields unchanged). -/
theorem C3_bump_invariance :
    ∀ (s : WState) (a : ℤ × ℤ),
      s.grid s.agentPos.1 s.agentPos.2 ≠ Cell.target →
      ¬ isValid s.grid (s.agentPos.1 + a.1) (s.agentPos.2 + a.2) →
      step s a =
        { s with totalReward := s.totalReward + s.rewards.wall,
                 stepCount := s.stepCount + 1 } := by
  intro s a h1 h2
  simp only [step]
  rw [if_neg h1, if_neg h2]
  simp only []
  rw [if_neg h1]

/-- C3 witness: bumping into the left wall from `(0,0)`. -/
def sC3 : WState :=
  { grid := grid0, startPos := (0, 0), agentPos := (0, 0), stepCount := 3, totalReward := 5,
    isRunning := true, values := vInit, rewards := rewards0, gamma := 9/10 }

theorem C3_witness :
    sC3.grid sC3.agentPos.1 sC3.agentPos.2 ≠ Cell.target ∧
    ¬ isValid sC3.grid (sC3.agentPos.1 + (0, -1).1) (sC3.agentPos.2 + (0, -1).2) ∧
    step sC3 (0, -1) =
      { sC3 with totalReward := sC3.totalReward + sC3.rewards.wall,
                 stepCount := sC3.stepCount + 1 } :=
  ⟨by decide, by decide, C3_bump_invariance sC3 (0, -1) (by decide) (by decide)⟩

/-! ## Claim C4 -/

/-- C4: the solver performs at most 200 sweeps; it stops as soon as a
sweep reports no change (returning that sweep's table), and a sweep
reports no change exactly when every non-terminal cell's Bellman update
stays within the `0.001` threshold.  The solver is a total function: it
never fails and always returns the table produced so far. -/
theorem C4_solver_termination :
    (∀ (g : Grid) (rew : Rewards) (γ : ℚ), solveSweeps g rew γ ≤ 200) ∧
    (∀ (g : Grid) (rew : Rewards) (γ : ℚ) (v : VTable) (n : ℕ),
      (sweep g rew γ v).2 = false →
      solveGo g rew γ (n + 1) v = ((sweep g rew γ v).1, 1)) ∧
    (∀ (g : Grid) (rew : Rewards) (γ : ℚ) (v : VTable),
      (sweep g rew γ v).2 = false ↔
        ∀ rc ∈ cellsList, g rc.1 rc.2 ≠ Cell.target → g rc.1 rc.2 ≠ Cell.forbidden →
          |jsMaxQ g rew γ v rc.1 rc.2 - v rc.1 rc.2| ≤ 1/1000) := by
  refine ⟨?_, ?_, ?_⟩
  · intro g rew γ
    exact solveGo_count_le g rew γ 200 vInit
  · intro g rew γ v n h
    exact solveGo_flagFalse n (Prod.ext rfl h)
  · intro g rew γ v
    rw [sweep_snd]
    constructor
    · intro h rc hrc h1 h2
      rw [List.any_eq_false] at h
      have h3 := h rc hrc
      simp only [decide_eq_true_eq] at h3
      push_neg at h3
      exact h3 h1 h2
    · intro h
      rw [List.any_eq_false]
      intro rc hrc
      simp only [decide_eq_true_eq]
      rintro ⟨h1, h2, h3⟩
      exact absurd h3 (not_lt.mpr (h rc hrc h1 h2))

/-- C4 witness: on the all-empty grid with zero rewards and `γ = 0` the
very first sweep changes nothing, and the loop stops after it. -/
def rewardsZ : Rewards := ⟨0, 0, 0, 0⟩

theorem C4_witness :
    (sweep baseGrid rewardsZ 0 vInit).2 = false ∧
    solveGo baseGrid rewardsZ 0 1 vInit = ((sweep baseGrid rewardsZ 0 vInit).1, 1) := by
  have hf : (sweep baseGrid rewardsZ 0 vInit).2 = false := by
    rw [sweep_snd]
    with_unfolding_all decide
  exact ⟨hf, C4_solver_termination.2.1 baseGrid rewardsZ 0 vInit 0 hf⟩

/-! ## Claim C5 -/

lemma getAction_Optimal_eq (g : Grid) (rew : Rewards) (γ : ℚ) (v : VTable)
    (pos : ℤ × ℤ) (rnd : Fin 4) :
    getAction_Optimal g rew γ v pos rnd =
      (let b2 := if expectedV g rew γ v pos (0, -1) > expectedV g rew γ v pos (0, 1)
                 then ((0, -1), expectedV g rew γ v pos (0, -1))
                 else (((0 : ℤ), (1 : ℤ)), expectedV g rew γ v pos (0, 1))
       let b3 := if expectedV g rew γ v pos (1, 0) > b2.2
                 then ((1, 0), expectedV g rew γ v pos (1, 0)) else b2
       if expectedV g rew γ v pos (-1, 0) > b3.2
       then ((-1, 0), expectedV g rew γ v pos (-1, 0)) else b3).1 := by
  simp only [getAction_Optimal, dirs, List.foldl_cons, List.foldl_nil,
    ← apply_ite Option.some]

/-- C5: `getAction_Optimal` always returns the first action, in the
fixed enumeration order Right `(0,1)`, Left `(0,-1)`, Down `(1,0)`,
Up `(-1,0)`, whose one-step lookahead `expectedV` attains the maximum
(an earlier action is only displaced by a strictly larger value).
Concretely, on the §8 configuration with the solver's table, the agent
at `(0,0)` sees equal values for Right and Down (`V(0,1) = V(1,0)` by
symmetry) and the tie goes to Right. -/
theorem C5_optimal_first_max :
    (∀ (g : Grid) (rew : Rewards) (γ : ℚ) (v : VTable) (pos : ℤ × ℤ) (rnd : Fin 4),
      (getAction_Optimal g rew γ v pos rnd = (0, 1) ∧
        expectedV g rew γ v pos (0, -1) ≤ expectedV g rew γ v pos (0, 1) ∧
        expectedV g rew γ v pos (1, 0) ≤ expectedV g rew γ v pos (0, 1) ∧
        expectedV g rew γ v pos (-1, 0) ≤ expectedV g rew γ v pos (0, 1)) ∨
      (getAction_Optimal g rew γ v pos rnd = (0, -1) ∧
        expectedV g rew γ v pos (0, 1) < expectedV g rew γ v pos (0, -1) ∧
        expectedV g rew γ v pos (1, 0) ≤ expectedV g rew γ v pos (0, -1) ∧
        expectedV g rew γ v pos (-1, 0) ≤ expectedV g rew γ v pos (0, -1)) ∨
      (getAction_Optimal g rew γ v pos rnd = (1, 0) ∧
        expectedV g rew γ v pos (0, 1) < expectedV g rew γ v pos (1, 0) ∧
        expectedV g rew γ v pos (0, -1) < expectedV g rew γ v pos (1, 0) ∧
        expectedV g rew γ v pos (-1, 0) ≤ expectedV g rew γ v pos (1, 0)) ∨
      (getAction_Optimal g rew γ v pos rnd = (-1, 0) ∧
        expectedV g rew γ v pos (0, 1) < expectedV g rew γ v pos (-1, 0) ∧
        expectedV g rew γ v pos (0, -1) < expectedV g rew γ v pos (-1, 0) ∧
        expectedV g rew γ v pos (1, 0) < expectedV g rew γ v pos (-1, 0))) ∧
    (solveMDP grid0 rewards0 (9/10) 0 1 = solveMDP grid0 rewards0 (9/10) 1 0 ∧
      ∀ rnd : Fin 4,
        getAction_Optimal grid0 rewards0 (9/10) (solveMDP grid0 rewards0 (9/10)) (0, 0) rnd
          = (0, 1)) := by
  constructor
  · intro g rew γ v pos rnd
    have hfold := getAction_Optimal_eq g rew γ v pos rnd
    by_cases h21 : expectedV g rew γ v pos (0, -1) > expectedV g rew γ v pos (0, 1)
    · by_cases h32 : expectedV g rew γ v pos (1, 0) > expectedV g rew γ v pos (0, -1)
      · by_cases h43 : expectedV g rew γ v pos (-1, 0) > expectedV g rew γ v pos (1, 0)
        · refine Or.inr (Or.inr (Or.inr ⟨?_, by linarith, by linarith, by linarith⟩))
          rw [hfold]
          simp [h21, h32, h43]
        · refine Or.inr (Or.inr (Or.inl ⟨?_, by linarith, by linarith, by linarith⟩))
          rw [hfold]
          simp [h21, h32, h43]
      · by_cases h42 : expectedV g rew γ v pos (-1, 0) > expectedV g rew γ v pos (0, -1)
        · refine Or.inr (Or.inr (Or.inr ⟨?_, by linarith, by linarith, by linarith⟩))
          rw [hfold]
          simp [h21, h32, h42]
        · refine Or.inr (Or.inl ⟨?_, by linarith, by linarith, by linarith⟩)
          rw [hfold]
          simp [h21, h32, h42]
    · by_cases h31 : expectedV g rew γ v pos (1, 0) > expectedV g rew γ v pos (0, 1)
      · by_cases h43 : expectedV g rew γ v pos (-1, 0) > expectedV g rew γ v pos (1, 0)
        · refine Or.inr (Or.inr (Or.inr ⟨?_, by linarith, by linarith, by linarith⟩))
          rw [hfold]
          simp [h21, h31, h43]
        · refine Or.inr (Or.inr (Or.inl ⟨?_, by linarith, by linarith, by linarith⟩))
          rw [hfold]
          simp [h21, h31, h43]
      · by_cases h41 : expectedV g rew γ v pos (-1, 0) > expectedV g rew γ v pos (0, 1)
        · refine Or.inr (Or.inr (Or.inr ⟨?_, by linarith, by linarith, by linarith⟩))
          rw [hfold]
          simp [h21, h31, h41]
        · refine Or.inl ⟨?_, by linarith, by linarith, by linarith⟩
          rw [hfold]
          simp [h21, h31, h41]
  · constructor
    · rw [vals8_eq]
      exact le_antisymm (by with_unfolding_all decide) (by with_unfolding_all decide)
    · intro rnd
      rw [vals8_eq, getAction_Optimal_eq]
      with_unfolding_all decide

/-! ## Claim C6 -/

/-- C6 (amended): on the obstacle-free default configuration
(`step = -1, target = 10, wall = -5, γ = 0.9`, Target at `(4,4)`), the
computed value table strictly decreases with Manhattan distance to the
Target over all non-Target cells (the Target cell itself is pinned to
`0` by convention, so it is excluded).  For small `γ` the claim fails
even away from the Target because sub-threshold updates are skipped;
see the counterexample. -/
theorem C6_monotone_distance_default :
    ∀ (r1 c1 r2 c2 : ℤ),
      0 ≤ r1 → r1 < GRID_SIZE → 0 ≤ c1 → c1 < GRID_SIZE →
      0 ≤ r2 → r2 < GRID_SIZE → 0 ≤ c2 → c2 < GRID_SIZE →
      grid0 r1 c1 ≠ Cell.target →
      manhattan (r1, c1) (4, 4) < manhattan (r2, c2) (4, 4) →
      solveMDP grid0 rewards0 (9/10) r2 c2 < solveMDP grid0 rewards0 (9/10) r1 c1 := by
  have key : ∀ p ∈ cellsList, ∀ q ∈ cellsList,
      grid0 p.1 p.2 ≠ Cell.target →
      manhattan p (4, 4) < manhattan q (4, 4) →
      tblOf tl8 q.1 q.2 < tblOf tl8 p.1 p.2 := by
    with_unfolding_all decide
  intro r1 c1 r2 c2 h1 h2 h3 h4 h5 h6 h7 h8 hnt hlt
  rw [vals8_eq]
  exact key (r1, c1) (mem_cellsList.mpr ⟨h1, h2, h3, h4⟩)
    (r2, c2) (mem_cellsList.mpr ⟨h5, h6, h7, h8⟩) hnt hlt

/-- C6 witness: `(4,3)` is closer to the target than `(0,0)` and has the
strictly larger value. -/
theorem C6_witness :
    grid0 4 3 ≠ Cell.target ∧
    manhattan (4, 3) (4, 4) < manhattan (0, 0) (4, 4) ∧
    solveMDP grid0 rewards0 (9/10) 0 0 < solveMDP grid0 rewards0 (9/10) 4 3 :=
  ⟨by decide, by with_unfolding_all decide,
    C6_monotone_distance_default 4 3 0 0 (by decide) (by decide) (by decide) (by decide)
      (by decide) (by decide) (by decide) (by decide) (by decide)
      (by with_unfolding_all decide)⟩

/-- C6 counterexample: the grid is obstacle-free, `γ = 1/1000 ∈ (0,1)`,
`step < 0 < target`, yet the solver's table assigns the same value to
`(4,1)` (Manhattan distance 3) and `(4,0)` (Manhattan distance 4): the
value does not strictly decrease with distance because updates within
the `0.001` threshold are skipped. -/
theorem C6_counterexample :
    (∀ rc ∈ cellsList, grid0 rc.1 rc.2 ≠ Cell.forbidden) ∧
    ((0 : ℚ) < 1/1000 ∧ (1/1000 : ℚ) < 1) ∧
    rewards0.step < 0 ∧ 0 < rewards0.target ∧
    manhattan (4, 1) (4, 4) < manhattan (4, 0) (4, 4) ∧
    solveMDP grid0 rewards0 (1/1000) 4 0 = solveMDP grid0 rewards0 (1/1000) 4 1 := by
  refine ⟨by decide, ⟨by norm_num, by norm_num⟩, by with_unfolding_all decide,
    by with_unfolding_all decide, by with_unfolding_all decide, ?_⟩
  rw [valsU_eq]
  exact le_antisymm (by with_unfolding_all decide) (by with_unfolding_all decide)

/-! ## Claim C7 -/

lemma targetCount_le_of_pointwise {g g' : Grid}
    (h : ∀ rc ∈ cellsList, g' rc.1 rc.2 = Cell.target → g rc.1 rc.2 = Cell.target) :
    targetCount g' ≤ targetCount g := by
  unfold targetCount
  apply List.countP_mono_left
  intro rc hrc
  simp only [decide_eq_true_eq]
  exact h rc hrc

lemma targetCount_write_le (g : Grid) (r c : ℤ) (x : Cell) (hx : x ≠ Cell.target) :
    targetCount (writeG g r c x) ≤ targetCount g := by
  apply targetCount_le_of_pointwise
  intro rc _ htar
  simp only [writeG] at htar
  by_cases hh : rc.1 = r ∧ rc.2 = c
  · rw [if_pos hh] at htar
    exact absurd htar hx
  · rwa [if_neg hh] at htar

lemma countP_eq_one_self (a : ℤ × ℤ) : ∀ (L : List (ℤ × ℤ)), L.Nodup → a ∈ L →
    L.countP (fun x => decide (x = a)) = 1 := by
  intro L
  induction L with
  | nil =>
    intro _ h
    cases h
  | cons x L ih =>
    intro hnd hmem
    rw [List.countP_cons]
    rcases List.mem_cons.mp hmem with rfl | hm
    · have hnotin : a ∉ L := (List.nodup_cons.mp hnd).1
      have hz : L.countP (fun x => decide (x = a)) = 0 := by
        rw [List.countP_eq_zero]
        intro b hb
        simp only [decide_eq_true_eq]
        rintro rfl
        exact hnotin hb
      simp [hz]
    · have hx : x ≠ a := by
        rintro rfl
        exact (List.nodup_cons.mp hnd).1 hm
      rw [ih (List.nodup_cons.mp hnd).2 hm]
      simp [hx]

lemma targetCount_markTarget (g : Grid) (r c : ℤ) (h1 : 0 ≤ r) (h2 : r < GRID_SIZE)
    (h3 : 0 ≤ c) (h4 : c < GRID_SIZE) :
    targetCount (writeG (clearTargets g) r c Cell.target) = 1 := by
  unfold targetCount
  have hpt : ∀ rc ∈ cellsList,
      (decide (writeG (clearTargets g) r c Cell.target rc.1 rc.2 = Cell.target)) =
        (decide (rc = (r, c))) := by
    intro rc hrc
    by_cases hh : rc.1 = r ∧ rc.2 = c
    · have he : rc = (r, c) := Prod.ext hh.1 hh.2
      simp [writeG, hh, he]
    · have hne : rc ≠ (r, c) := by
        intro he
        exact hh ⟨by rw [he], by rw [he]⟩
      simp only [writeG, if_neg hh]
      rw [clearTargets_apply]
      split_ifs with hsp
      · simp [hne]
      · have hnt : g rc.1 rc.2 ≠ Cell.target := fun ht => hsp ⟨hrc, ht⟩
        simp [hnt, hne]
  rw [List.countP_congr (fun a ha => by rw [hpt a ha])]
  exact countP_eq_one_self (r, c) cellsList cellsList_nodup
    (mem_cellsList.mpr ⟨h1, h2, h3, h4⟩)

lemma step_grid (s : WState) (a : ℤ × ℤ) : (step s a).grid = s.grid := by
  simp only [step]
  split_ifs <;> rfl

lemma startRun_grid (s : WState) : (startRun s).grid = s.grid := by
  simp only [startRun, resetAgent]
  split_ifs <;> rfl

lemma targetCount_ite_write_le (g : Grid) (r c : ℤ) (cond : Prop) [Decidable cond] :
    targetCount (if cond then writeG g r c Cell.empty else g) ≤ targetCount g := by
  split_ifs
  · exact targetCount_write_le g r c Cell.empty (by simp)
  · exact le_refl _

/-- The grid produced by an in-range, non-running `handleCellClick` with
any tool keeps the target count at most 1 whenever the input grid
satisfies it, and the `target` tool restores exactly 1. -/
lemma click_targetCount_le (s : WState) (tool : Tool) (r c : ℤ) (s' : WState)
    (heq : handleCellClick s tool r c = Except.ok s')
    (h1 : 0 ≤ r) (h2 : r < GRID_SIZE) (h3 : 0 ≤ c) (h4 : c < GRID_SIZE)
    (hbound : targetCount s.grid ≤ 1) : targetCount s'.grid ≤ 1 := by
  by_cases hrun : s.isRunning = true
  · rw [handleCellClick.eq_def, if_pos hrun] at heq
    cases heq
    exact hbound
  · rw [handleCellClick.eq_def, if_neg hrun, if_pos ⟨h1, h2⟩] at heq
    cases tool
    · cases heq
      exact le_trans
        (le_trans (targetCount_ite_write_le _ r c _) (targetCount_ite_write_le _ r c _)) hbound
    · cases heq
      exact le_of_eq (targetCount_markTarget s.grid r c h1 h2 h3 h4)
    · cases heq
      exact le_trans (targetCount_write_le s.grid r c Cell.forbidden (by simp)) hbound
    · cases heq
      exact le_trans (targetCount_write_le s.grid r c Cell.empty (by simp)) hbound

/-- C7 (amended): every reachable state has at most one Target cell, and
marking a cell with the `target` tool (while not running, at in-range
coordinates) always leaves exactly one Target — the prior holder is
cleared before assignment.  Exactly one Start exists trivially
(`startPos` is a single field).  The count can drop to zero because the
`forbidden`/`empty`/`start` tools may overwrite the unique Target; see
the counterexample. -/
theorem C7_target_invariant :
    (∀ s : WState, Reachable s → targetCount s.grid ≤ 1) ∧
    (∀ (s : WState) (r c : ℤ), s.isRunning = false →
      0 ≤ r → r < GRID_SIZE → 0 ≤ c → c < GRID_SIZE →
      ∀ s', handleCellClick s Tool.target r c = Except.ok s' →
        targetCount s'.grid = 1) := by
  have hmark : ∀ (s : WState) (r c : ℤ), s.isRunning = false →
      0 ≤ r → r < GRID_SIZE → 0 ≤ c → c < GRID_SIZE →
      ∀ s', handleCellClick s Tool.target r c = Except.ok s' →
        targetCount s'.grid = 1 := by
    intro s r c hrun h1 h2 h3 h4 s' heq
    rw [handleCellClick.eq_def, if_neg (by simp [hrun]), if_pos ⟨h1, h2⟩] at heq
    cases heq
    exact targetCount_markTarget s.grid r c h1 h2 h3 h4
  refine ⟨?_, hmark⟩
  intro s hs
  induction hs with
  | init => decide
  | click tool r c _ hr1 hr2 hc1 hc2 heq ih =>
    exact click_targetCount_le _ tool r c _ heq hr1 hr2 hc1 hc2 ih
  | simStep a _ _ ih => rwa [step_grid]
  | reset _ ih => exact ih
  | simStart _ ih => rwa [startRun_grid]
  | simStop _ ih => exact ih
  | editRewards rew _ ih => exact ih
  | editGamma γ _ ih => exact ih

/-- C7 witness: the invariant applied to the initial state, and the
`target` tool applied at `(2,2)` of the initial state yielding exactly
one target. -/
theorem C7_witness :
    targetCount initW.grid ≤ 1 ∧
    (initW.isRunning = false ∧
      targetCount (exOut (handleCellClick initW Tool.target 2 2)).grid = 1) :=
  ⟨C7_target_invariant.1 initW Reachable.init,
    rfl,
    C7_target_invariant.2 initW 2 2 rfl (by decide) (by decide) (by decide) (by decide)
      (exOut (handleCellClick initW Tool.target 2 2)) rfl⟩

/-- C7 counterexample: from the initial state (one Target at `(4,4)`),
clicking the `forbidden` tool on `(4,4)` is a legal reachable edit that
overwrites the unique Target, leaving a reachable grid with zero Target
cells — "exactly one Target at any time" is violated. -/
theorem C7_counterexample :
    Reachable (exOut (handleCellClick initW Tool.forbidden 4 4)) ∧
    targetCount (exOut (handleCellClick initW Tool.forbidden 4 4)).grid = 0 := by
  constructor
  · exact Reachable.click Tool.forbidden 4 4 Reachable.init (by decide) (by decide)
      (by decide) (by decide) rfl
  · decide

/-! ## Claim C8 -/

/-- C8: while the simulation is Running, a grid edit through
`handleCellClick` returns the state unchanged (and raises nothing), and
the manual single-step control is disabled, so invoking it does not
change the state either. -/
theorem C8_running_noop :
    ∀ (s : WState) (tool : Tool) (r c : ℤ) (a : ℤ × ℤ),
      s.isRunning = true →
      handleCellClick s tool r c = Except.ok s ∧ manualStep s a = s := by
  intro s tool r c a h
  constructor
  · rw [handleCellClick.eq_def, if_pos h]
  · rw [manualStep, if_pos h]

/-- C8 witness: a concrete running state. -/
theorem C8_witness :
    sC3.isRunning = true ∧
    handleCellClick sC3 Tool.forbidden 2 2 = Except.ok sC3 ∧
    manualStep sC3 (0, 1) = sC3 :=
  ⟨rfl, (C8_running_noop sC3 Tool.forbidden 2 2 (0, 1) rfl).1,
    (C8_running_noop sC3 Tool.forbidden 2 2 (0, 1) rfl).2⟩

/-! ## Claim C9 -/

/-- C9 (amended): the move-validity query `isValid` is defensive — it
returns false on every out-of-range coordinate pair — but the cell-type
edit `handleCellClick` performs no bounds check: called (while not
Running) with a row index outside `[0,5)` it throws a `TypeError`
(every tool branch accesses `grid[r][c]` through the `undefined` row),
while any in-range row never throws (an out-of-range column silently
creates an out-of-grid array slot instead). -/
theorem C9_defensive_bounds :
    (∀ (g : Grid) (r c : ℤ),
      ¬(0 ≤ r ∧ r < GRID_SIZE ∧ 0 ≤ c ∧ c < GRID_SIZE) → ¬ isValid g r c) ∧
    (∀ (s : WState) (tool : Tool) (r c : ℤ),
      s.isRunning = false → ¬(0 ≤ r ∧ r < GRID_SIZE) →
      exThrew (handleCellClick s tool r c) = true) ∧
    (∀ (s : WState) (tool : Tool) (r c : ℤ),
      0 ≤ r → r < GRID_SIZE →
      exThrew (handleCellClick s tool r c) = false) := by
  refine ⟨?_, ?_, ?_⟩
  · intro g r c h hv
    exact h ⟨hv.1, hv.2.1, hv.2.2.1, hv.2.2.2.1⟩
  · intro s tool r c hrun hout
    rw [handleCellClick.eq_def, if_neg (by simp [hrun]), if_neg hout]
    cases tool <;> rfl
  · intro s tool r c h1 h2
    rw [handleCellClick.eq_def]
    by_cases hrun : s.isRunning = true
    · rw [if_pos hrun]
      rfl
    · rw [if_neg hrun, if_pos ⟨h1, h2⟩]
      rfl

/-- C9 witness: `(5,0)` is rejected by `isValid` on the default grid,
and clicking `(5,0)` with the `forbidden` tool from the mounted state
throws. -/
theorem C9_witness :
    (¬((0 : ℤ) ≤ 5 ∧ (5 : ℤ) < GRID_SIZE ∧ (0 : ℤ) ≤ 0 ∧ (0 : ℤ) < GRID_SIZE) ∧
      ¬ isValid grid0 5 0) ∧
    (initW.isRunning = false ∧
      exThrew (handleCellClick initW Tool.forbidden 5 0) = true) :=
  ⟨⟨by decide, C9_defensive_bounds.1 grid0 5 0 (by decide)⟩,
    ⟨rfl, C9_defensive_bounds.2.1 initW Tool.forbidden 5 0 rfl (by decide)⟩⟩

/-- C9 counterexample: invoking the grid edit at the out-of-range
coordinates `(5,0)` from the mounted state raises an error (a JavaScript
`TypeError` on the `undefined` row), contradicting the claim that every
grid operation handles out-of-range coordinates without ever raising. -/
theorem C9_counterexample :
    exThrew (handleCellClick initW Tool.forbidden 5 0) = true := rfl

/-! ## Claim C10 -/

/-- C10: when the grid contains no Target cell at all, the Greedy
policy does not fail: it returns exactly what the Random policy returns
for the same random draw — one of the four directions. -/
theorem C10_greedy_no_target :
    ∀ (g : Grid) (pos : ℤ × ℤ) (rnd : Fin 4),
      (∀ rc ∈ cellsList, g rc.1 rc.2 ≠ Cell.target) →
      getAction_Greedy g pos rnd = getAction_Random rnd ∧ getAction_Random rnd ∈ dirs := by
  intro g pos rnd h
  constructor
  · rw [getAction_Greedy, findTargetLast_eq_none g h]
  · exact List.get_mem dirs rnd.1 (by simp [dirs])

/-- C10 witness: the empty grid has no target; Greedy equals Random
there. -/
theorem C10_witness :
    getAction_Greedy baseGrid (2, 2) 1 = getAction_Random 1 :=
  (C10_greedy_no_target baseGrid (2, 2) 1 (by decide)).1

end GridWorld
